import Mathlib

/-!
Verification of the string-analyzer service (Node.js/Express repository).

The single source file concatenates three program variants:
* variant A — in-memory `Map` store (`analyzeString`, `parseNaturalLanguageQuery`,
  `applyFilters`, the `/strings` handlers);
* variant B — `better-sqlite3` store (`computeProperties`, `parseNlQuery`,
  SQL-clause filtering, a `min_length > max_length` check in `GET /strings`);
* variant C — a near-duplicate of variant B (same definitions; not modelled
  separately).

Strings are modelled as lists of Unicode scalar values (`List Char`).
JavaScript's string primitives are modelled explicitly where their
UTF-16 nature matters: `value.length` is the UTF-16 code-unit count,
`split('')` splits into UTF-16 code units (cutting surrogate pairs),
`for (const ch of s)` / `Array.from(s)` iterate code points.
`String.prototype.toLowerCase` is modelled on the ASCII range (identity
elsewhere); every case-sensitive example in the claims is ASCII.
-/

/-- A JavaScript string value, as its sequence of Unicode code points. -/
abbrev JStr := List Char

/-- The characters matched by JavaScript's `\s` regexp class (also the set
removed by `String.prototype.trim`). -/
def jsWhitespace (c : Char) : Bool :=
  c.toNat == 32 || c.toNat == 9 || c.toNat == 10 || c.toNat == 11 || c.toNat == 12 ||
  c.toNat == 13 || c.toNat == 160 || c.toNat == 5760 ||
  (decide (8192 ≤ c.toNat) && decide (c.toNat ≤ 8202)) ||
  c.toNat == 8232 || c.toNat == 8233 || c.toNat == 8239 || c.toNat == 8287 ||
  c.toNat == 12288 || c.toNat == 65279

/-- Models `String.prototype.toLowerCase` per code point, restricted to the
ASCII range; code points outside A–Z are left unchanged.  (JavaScript applies
the full Unicode lowercase mapping there; all cased characters appearing in
the claims are ASCII, and the emoji used in counterexamples has no case
mapping at all.) -/
def jsToLowerChar (c : Char) : Char :=
  if 'A' ≤ c ∧ c ≤ 'Z' then Char.ofNat (c.toNat + 32) else c

/-- `String.prototype.toLowerCase` over the whole string. -/
def jsToLower (s : JStr) : JStr := s.map jsToLowerChar

/-- The UTF-16 code units of a single code point: one unit inside the Basic
Multilingual Plane, a surrogate pair above it. -/
def utf16Char (c : Char) : List Nat :=
  if c.toNat < 65536 then [c.toNat]
  else [55296 + (c.toNat - 65536) / 1024, 56320 + (c.toNat - 65536) % 1024]

/-- The UTF-16 code-unit sequence of a string; JavaScript's
`s.split('')` produces one (one-unit) string per element of this list. -/
def utf16Units (s : JStr) : List Nat := (s.map utf16Char).flatten

/-- JavaScript's `s.length`: the number of UTF-16 code units. -/
def utf16Len (s : JStr) : Nat := (utf16Units s).length

/-- The UTF-8 bytes of one code point. -/
def utf8EncodeChar (c : Char) : List Nat :=
  let n := c.toNat
  if n < 128 then [n]
  else if n < 2048 then [192 + n / 64, 128 + n % 64]
  else if n < 65536 then [224 + n / 4096, 128 + (n / 64) % 64, 128 + n % 64]
  else [240 + n / 262144, 128 + (n / 4096) % 64, 128 + (n / 64) % 64, 128 + n % 64]

/-- The UTF-8 byte encoding of a string (what `crypto.createHash('sha256')
.update(value)` hashes — `update` defaults to UTF-8, and variant B passes
`'utf8'` explicitly). -/
def utf8Encode (s : JStr) : List Nat := (s.map utf8EncodeChar).flatten

/-! ## SHA-256 (FIPS 180-4), over byte lists, 32-bit words as `Nat` mod 2^32 -/

/-- Truncation to a 32-bit word. -/
def w32 (n : Nat) : Nat := n % 4294967296

/-- Right rotation of a 32-bit word. -/
def rotr32 (n x : Nat) : Nat := w32 ((x >>> n) ||| (x <<< (32 - n)))

def schedSigma0 (x : Nat) : Nat := (rotr32 7 x) ^^^ (rotr32 18 x) ^^^ (x >>> 3)

def schedSigma1 (x : Nat) : Nat := (rotr32 17 x) ^^^ (rotr32 19 x) ^^^ (x >>> 10)

def roundSigma0 (x : Nat) : Nat := (rotr32 2 x) ^^^ (rotr32 13 x) ^^^ (rotr32 22 x)

def roundSigma1 (x : Nat) : Nat := (rotr32 6 x) ^^^ (rotr32 11 x) ^^^ (rotr32 25 x)

/-- The 64 SHA-256 round constants (FIPS 180-4 §4.2.2, in decimal). -/
def sha256K : List Nat :=
  [1116352408, 1899447441, 3049323471, 3921009573, 961987163,
   1508970993, 2453635748, 2870763221, 3624381080, 310598401,
   607225278, 1426881987, 1925078388, 2162078206, 2614888103,
   3248222580, 3835390401, 4022224774, 264347078, 604807628,
   770255983, 1249150122, 1555081692, 1996064986, 2554220882,
   2821834349, 2952996808, 3210313671, 3336571891, 3584528711,
   113926993, 338241895, 666307205, 773529912, 1294757372,
   1396182291, 1695183700, 1986661051, 2177026350, 2456956037,
   2730485921, 2820302411, 3259730800, 3345764771, 3516065817,
   3600352804, 4094571909, 275423344, 430227734, 506948616,
   659060556, 883997877, 958139571, 1322822218, 1537002063,
   1747873779, 1955562222, 2024104815, 2227730452, 2361852424,
   2428436474, 2756734187, 3204031479, 3329325298]

/-- The eight 32-bit words of a SHA-256 state. -/
structure H8 where
  a : Nat
  b : Nat
  c : Nat
  d : Nat
  e : Nat
  f : Nat
  g : Nat
  h : Nat
deriving DecidableEq, Repr

/-- SHA-256 initial hash value (FIPS 180-4 §5.3.3, in decimal). -/
def sha256H0 : H8 :=
  ⟨1779033703, 3144134277, 1013904242, 2773480762,
   1359893119, 2600822924, 528734635, 1541459225⟩

/-- Big-endian 8-byte encoding (for the 64-bit message-length suffix). -/
def beBytes8 (n : Nat) : List Nat :=
  [(n >>> 56) % 256, (n >>> 48) % 256, (n >>> 40) % 256, (n >>> 32) % 256,
   (n >>> 24) % 256, (n >>> 16) % 256, (n >>> 8) % 256, n % 256]

/-- SHA-256 padding: append `0x80`, zeros to 56 mod 64, then the bit length. -/
def sha256Pad (msg : List Nat) : List Nat :=
  let zeros := (64 - ((msg.length + 9) % 64)) % 64
  msg ++ [128] ++ List.replicate zeros 0 ++ beBytes8 (8 * msg.length)

/-- Group bytes four at a time into big-endian 32-bit words. -/
def beWords : List Nat → List Nat
  | a :: b :: c :: d :: rest => (((a * 256 + b) * 256 + c) * 256 + d) :: beWords rest
  | _ => []

/-- Split a word list into chunks of 16 (fuel-bounded by the list length;
each step consumes at least one element, so the fuel never runs out). -/
def chunks16Aux : Nat → List Nat → List (List Nat)
  | 0, _ => []
  | _, [] => []
  | fuel + 1, l => l.take 16 :: chunks16Aux fuel (l.drop 16)

def chunks16 (l : List Nat) : List (List Nat) := chunks16Aux l.length l

/-- One step of the message-schedule extension: appends
`σ1(w[n-2]) + w[n-7] + σ0(w[n-15]) + w[n-16]` for the current length `n`. -/
def sha256ExtendStep (ws : List Nat) : List Nat :=
  let n := ws.length
  ws ++ [w32 (schedSigma1 (ws.getD (n - 2) 0) + ws.getD (n - 7) 0 +
              schedSigma0 (ws.getD (n - 15) 0) + ws.getD (n - 16) 0)]

/-- Extend a 16-word chunk to the 64-word message schedule. -/
def sha256Schedule (ws : List Nat) : List Nat := Nat.iterate sha256ExtendStep 48 ws

/-- One SHA-256 compression round, fed the pair (round constant, schedule word). -/
def sha256Round (s : H8) (kw : Nat × Nat) : H8 :=
  let t1 := w32 (s.h + roundSigma1 s.e + ((s.e &&& s.f) ^^^ ((4294967295 ^^^ s.e) &&& s.g)) +
                 kw.1 + kw.2)
  let t2 := w32 (roundSigma0 s.a + ((s.a &&& s.b) ^^^ (s.a &&& s.c) ^^^ (s.b &&& s.c)))
  ⟨w32 (t1 + t2), s.a, s.b, s.c, w32 (s.d + t1), s.e, s.f, s.g⟩

/-- Process one 16-word chunk against the running hash state. -/
def sha256Chunk (s : H8) (chunk : List Nat) : H8 :=
  let t := (List.zip sha256K (sha256Schedule chunk)).foldl sha256Round s
  ⟨w32 (s.a + t.a), w32 (s.b + t.b), w32 (s.c + t.c), w32 (s.d + t.d),
   w32 (s.e + t.e), w32 (s.f + t.f), w32 (s.g + t.g), w32 (s.h + t.h)⟩

/-- SHA-256 digest of a byte sequence, as the final eight-word state. -/
def sha256Words (msg : List Nat) : H8 :=
  (chunks16 (beWords (sha256Pad msg))).foldl sha256Chunk sha256H0

/-- One lowercase hexadecimal digit. -/
def hexDigit (n : Nat) : Char :=
  if n < 10 then Char.ofNat (48 + n) else Char.ofNat (87 + n)

/-- Eight lowercase hex characters of a 32-bit word, most significant first. -/
def wordHex (w : Nat) : JStr :=
  [hexDigit ((w >>> 28) % 16), hexDigit ((w >>> 24) % 16),
   hexDigit ((w >>> 20) % 16), hexDigit ((w >>> 16) % 16),
   hexDigit ((w >>> 12) % 16), hexDigit ((w >>> 8) % 16),
   hexDigit ((w >>> 4) % 16), hexDigit (w % 16)]

/-- Lowercase-hex SHA-256 digest of a byte sequence (`digest('hex')`). -/
def sha256HexBytes (msg : List Nat) : JStr :=
  let s := sha256Words msg
  wordHex s.a ++ wordHex s.b ++ wordHex s.c ++ wordHex s.d ++
  wordHex s.e ++ wordHex s.f ++ wordHex s.g ++ wordHex s.h

/-- Source `sha256Hash` (variant A): hex SHA-256 of the string's UTF-8 bytes.
(`crypto.createHash('sha256').update(value).digest('hex')`.) -/
def sha256Hash (value : JStr) : JStr := sha256HexBytes (utf8Encode value)

/-- Source `sha256Of` (variant B): identical computation, `'utf8'` explicit. -/
def sha256Of (text : JStr) : JStr := sha256Hash text

/-! ## Property Analyzer (variants A and B) -/

/-- Source `isPalindrome` (identical in all variants):
`normalized = value.toLowerCase()`, compare with
`normalized.split('').reverse().join('')`.  `split('')` cuts the string into
UTF-16 code units and string equality compares code units, so the comparison
is unit-sequence equality against the reversed unit sequence. -/
def isPalindrome (value : JStr) : Bool :=
  utf16Units (jsToLower value) == (utf16Units (jsToLower value)).reverse

/-- Source `uniqueCharacters` (variant A): `new Set(value.split('')).size` —
the number of distinct UTF-16 code units. -/
def uniqueCharacters (value : JStr) : Nat := (utf16Units value).dedup.length

/-- Variant B's unique-character count: `new Set(Array.from(value)).size` —
the number of distinct code points. -/
def uniqueCharactersB (value : JStr) : Nat := value.dedup.length

/-- Source `wordCount` (all variants agree extensionally): the number of
maximal runs of non-whitespace characters.  Variant A trims and splits on
`/\s+/`; variant B counts `/\S+/g` matches; both equal this run count, with
empty and all-whitespace input giving 0.  The accumulator records whether the
previous character was part of a word. -/
def wordCountAux : JStr → Bool → Nat
  | [], _ => 0
  | c :: cs, inWord =>
    if jsWhitespace c then wordCountAux cs false
    else (if inWord then 0 else 1) + wordCountAux cs true

def wordCount (value : JStr) : Nat := wordCountAux value false

/-- One step of `freqMap[char] = (freqMap[char] || 0) + 1` on a JavaScript
object modelled as an insertion-ordered association list: an existing key is
incremented in place, a new key is appended. -/
def freqInsert (m : List (Char × Nat)) (c : Char) : List (Char × Nat) :=
  if m.any (fun p => p.1 == c) then
    m.map (fun p => if p.1 = c then (p.1, p.2 + 1) else p)
  else m ++ [(c, 1)]

/-- Source `charFrequencyMap` / `computeCharacterFrequency`:
`for (const char of value)` iterates code points. -/
def charFrequencyMap (value : JStr) : List (Char × Nat) :=
  value.foldl freqInsert []

/-- The property bundle returned by the analyzer (`id`/`created_at` of the
stored record are handler concerns and are not modelled). -/
structure PropertyBundle where
  length : Nat
  is_palindrome : Bool
  unique_characters : Nat
  word_count : Nat
  sha256_hash : JStr
  character_frequency_map : List (Char × Nat)
deriving DecidableEq, Repr

/-- Source `analyzeString` (variant A).  `value.length` is the UTF-16
code-unit count. -/
def analyzeString (value : JStr) : PropertyBundle :=
  { length := utf16Len value
    is_palindrome := isPalindrome value
    unique_characters := uniqueCharacters value
    word_count := wordCount value
    sha256_hash := sha256Hash value
    character_frequency_map := charFrequencyMap value }

/-- Source `computeProperties` (variant B): as `analyzeString` except that
`unique_characters` counts distinct code points (`Array.from`). -/
def computeProperties (value : JStr) : PropertyBundle :=
  { length := utf16Len value
    is_palindrome := isPalindrome value
    unique_characters := uniqueCharactersB value
    word_count := wordCount value
    sha256_hash := sha256Of value
    character_frequency_map := charFrequencyMap value }

/-! ## Regex scanning primitives

The parser's regexes are compiled by hand into scanners over `List Char`.
Each `match…At` function decides a match anchored at the head of its input;
`scanFor` tries successive start positions left to right, as the JS engine
does.  Greedy quantifiers whose backtracking can never change the outcome
(argued locally in comments) are unrolled to their greedy branch. -/

/-- Match a literal pattern (first argument) at the head of the input,
returning the remainder on success. -/
def matchLit : JStr → JStr → Option JStr
  | [], rest => some rest
  | _ :: _, [] => none
  | p :: ps, c :: cs => if p = c then matchLit ps cs else none

/-- Try an anchored matcher at every start position, leftmost first. -/
def scanFor {α : Type} (f : JStr → Option α) : JStr → Option α
  | [] => none
  | c :: cs =>
    match f (c :: cs) with
    | some x => some x
    | none => scanFor f cs

/-- Digits of a decimal numeral, `\d = [0-9]`. -/
def digitsToNat (ds : JStr) : Nat := ds.foldl (fun a c => a * 10 + (c.toNat - 48)) 0

/-- JavaScript `parseInt(s)` (radix-10 path): skip leading whitespace, an
optional sign, then a maximal digit run; `none` is `NaN`.  (The `0x` prefix
form of `parseInt` does not occur in the modelled inputs, which come from
`\d+` captures and the claims' numeral parameters.) -/
def jsParseIntDigits (l : JStr) : Option Nat :=
  let ds := l.takeWhile Char.isDigit
  if ds.isEmpty then none else some (digitsToNat ds)

def jsParseInt (s : JStr) : Option Int :=
  match s.dropWhile jsWhitespace with
  | '-' :: rest => (jsParseIntDigits rest).map (fun n => -(n : Int))
  | '+' :: rest => (jsParseIntDigits rest).map (fun n => (n : Int))
  | t => (jsParseIntDigits t).map (fun n => (n : Int))

/-- Does the second list start with the first? -/
def startsWithSeq {α : Type} [BEq α] : List α → List α → Bool
  | [], _ => true
  | _ :: _, [] => false
  | a :: as, b :: bs => a == b && startsWithSeq as bs

/-- Does the first list occur contiguously inside the second?
(`String.prototype.includes`; an empty needle is always found.) -/
def containsSeq {α : Type} [BEq α] (needle : List α) : List α → Bool
  | [] => needle.isEmpty
  | b :: bs => startsWithSeq needle (b :: bs) || containsSeq needle bs

/-- `hay.includes(needle)` for the parser's ASCII needles.  The parser runs
on code points; for ASCII needles this coincides with JavaScript's code-unit
search, since an ASCII unit never equals a surrogate half. -/
def containsSub (needle hay : JStr) : Bool := containsSeq needle hay

/-! ## Variant A natural-language parser (`parseNaturalLanguageQuery`) -/

/-- The word-count regex `/(single|one|two|three|four|five|\d+)\s+word(s)?/`,
anchored at the head: returns the captured numeral string.  At a given
position at most one alternative can match (their first characters separate
them), and backtracking a greedy `\d+` cannot help because `\s+` never
matches a digit, so the greedy unrolling is exact.  The trailing `(s)?`
cannot fail. -/
def matchWordPhraseAt (l : JStr) : Option JStr :=
  let alt : Option (JStr × JStr) :=
    [("single").toList, ("one").toList, ("two").toList,
     ("three").toList, ("four").toList, ("five").toList].findSome?
      (fun a => (matchLit a l).map (fun rest => (a, rest)))
  let alt := match alt with
    | some r => some r
    | none =>
      let ds := l.takeWhile Char.isDigit
      if ds.isEmpty then none else some (ds, l.dropWhile Char.isDigit)
  match alt with
  | none => none
  | some (numStr, rest) =>
    let ws := rest.takeWhile jsWhitespace
    if ws.isEmpty then none
    else
      match matchLit (("word").toList) (rest.dropWhile jsWhitespace) with
      | some _ => some numStr
      | none => none

/-- First match of the word-count regex (non-global `match`). -/
def findWordPhrase (l : JStr) : Option JStr := scanFor matchWordPhraseAt l

/-- The source's mapping from the captured numeral string to a count:
`single`/`one`/`two`/`three` explicitly, otherwise `parseInt` — which is
`NaN` for `four` and `five`, leaving `count` undefined (no filter is set). -/
def wordCountOf (numStr : JStr) : Option Int :=
  if numStr = ("single").toList ∨ numStr = ("one").toList then some 1
  else if numStr = ("two").toList then some 2
  else if numStr = ("three").toList then some 3
  else jsParseInt numStr

/-- The eight alternatives of the length regex
`/(longer than|shorter than|min length|max length|at least|at most|greater than|less than)\s*(\d+)/g`. -/
inductive LenPhrase where
  | longerThan | shorterThan | minLength | maxLength
  | atLeast | atMost | greaterThan | lessThan
deriving DecidableEq, Repr

def lenPhrases : List (LenPhrase × JStr) :=
  [(.longerThan, ("longer than").toList), (.shorterThan, ("shorter than").toList),
   (.minLength, ("min length").toList), (.maxLength, ("max length").toList),
   (.atLeast, ("at least").toList), (.atMost, ("at most").toList),
   (.greaterThan, ("greater than").toList), (.lessThan, ("less than").toList)]

/-- One anchored match of the length regex: a phrase alternative (no two can
match at the same position — none is a prefix of another), `\s*`, then a
nonempty digit run.  Returns the phrase, its number, and the remainder after
the match (the `lastIndex` the `exec` loop continues from). -/
def matchLenAt (l : JStr) : Option ((LenPhrase × Int) × JStr) :=
  match lenPhrases.findSome? (fun pr => (matchLit pr.2 l).map (fun rest => (pr.1, rest))) with
  | none => none
  | some (p, rest) =>
    let rest2 := rest.dropWhile jsWhitespace
    let ds := rest2.takeWhile Char.isDigit
    if ds.isEmpty then none
    else some ((p, (digitsToNat ds : Int)), rest2.dropWhile Char.isDigit)

/-- All matches of the global length regex, left to right, each scan resuming
after the previous match.  Fuel is the input length; every step consumes at
least one character (a successful match consumes the nonempty phrase and at
least one digit), so the fuel never runs out. -/
def findLenMatchesAux : Nat → JStr → List (LenPhrase × Int)
  | 0, _ => []
  | _, [] => []
  | fuel + 1, c :: cs =>
    match matchLenAt (c :: cs) with
    | some (pv, rest) => pv :: findLenMatchesAux fuel rest
    | none => findLenMatchesAux fuel cs

def findLenMatches (l : JStr) : List (LenPhrase × Int) := findLenMatchesAux l.length l

/-- The structured filter set.  Length bounds are `Int` because the parser's
`num - 1` on `shorter than 0` produces `-1`; `word_count` is `Int` since it
is a JS number.  `contains_character` is the raw string the code stores. -/
structure Filters where
  is_palindrome : Option Bool := none
  word_count : Option Int := none
  min_length : Option Int := none
  max_length : Option Int := none
  contains_character : Option JStr := none
deriving DecidableEq, Repr

/-- `filters.min_length ? Math.max(filters.min_length, v) : v` — note the JS
truthiness: an existing bound of `0` is falsy and is replaced by `v` rather
than maxed (harmless for `min`, since all contributions are ≥ 0). -/
def updMin : Option Int → Int → Option Int
  | none, v => some v
  | some m, v => some (if m = 0 then v else max m v)

/-- `filters.max_length ? Math.min(filters.max_length, v) : v`, with the same
truthiness quirk (an existing `0` upper bound is overwritten). -/
def updMax : Option Int → Int → Option Int
  | none, v => some v
  | some m, v => some (if m = 0 then v else min m v)

/-- The body of the length-regex `while` loop.  The source branches on
`type.includes(...)`: the first branch fires for `longer than`, `at least`
and `greater than` (its `includes('minimum length')` test can never fire,
since the capture is the literal `min length`), the second for
`shorter than`, `at most` and `less than` (its `includes('maximum length')`
test is likewise dead).  A `min length` or `max length` capture therefore
falls through both branches and sets nothing.  `than`-phrases add/subtract 1
(`num + (type.includes('than') ? 1 : 0)` and mirrored). -/
def applyLenMatch (f : Filters) (pv : LenPhrase × Int) : Filters :=
  match pv.1 with
  | .longerThan => { f with min_length := updMin f.min_length (pv.2 + 1) }
  | .greaterThan => { f with min_length := updMin f.min_length (pv.2 + 1) }
  | .atLeast => { f with min_length := updMin f.min_length pv.2 }
  | .shorterThan => { f with max_length := updMax f.max_length (pv.2 - 1) }
  | .lessThan => { f with max_length := updMax f.max_length (pv.2 - 1) }
  | .atMost => { f with max_length := updMax f.max_length pv.2 }
  | .minLength => f
  | .maxLength => f

/-- Regex 1 for `contains_character`:
`/contain(s)? the letter\s*["']?([a-z])["']?/i`.  The query is already
lowercased, so the `i` flag and the upper half of `[a-z]` are moot.  The
greedy `(s)?` and `["']?` branches are exact: when the optional token is
present but the continuation fails, the untaken branch immediately needs a
different first character and fails too.  The trailing `["']?` cannot fail. -/
def matchContains1At (l : JStr) : Option Char :=
  match matchLit (("contain").toList) l with
  | none => none
  | some r =>
    let r1 := match r with
      | 's' :: t => t
      | _ => r
    match matchLit ((" the letter").toList) r1 with
    | none => none
    | some r2 =>
      let r3 := r2.dropWhile jsWhitespace
      let r4 := match r3 with
        | '"' :: t => t
        | '\'' :: t => t
        | _ => r3
      match r4 with
      | c :: _ => if 'a' ≤ c ∧ c ≤ 'z' then some c else none
      | [] => none

def findContains1 (l : JStr) : Option Char := scanFor matchContains1At l

/-- Regex 2 for `contains_character`:
`/(contains|with character|has)\s*["']?([a-z])["']?/i`.  The alternatives
start with distinct characters, so at most one can match at a position. -/
def matchContains2At (l : JStr) : Option Char :=
  match [("contains").toList, ("with character").toList, ("has").toList].findSome?
      (fun a => matchLit a l) with
  | none => none
  | some r =>
    let r2 := r.dropWhile jsWhitespace
    let r3 := match r2 with
      | '"' :: t => t
      | '\'' :: t => t
      | _ => r2
    match r3 with
    | c :: _ => if 'a' ≤ c ∧ c ≤ 'z' then some c else none
    | [] => none

def findContains2 (l : JStr) : Option Char := scanFor matchContains2At l

/-- Rule 1 of `parseNaturalLanguageQuery`: a `palindrome`/`palindromic`
substring sets `is_palindrome = true`. -/
def rulePalindrome (lowerQuery : JStr) (f : Filters) : Filters :=
  if containsSub (("palindrome").toList) lowerQuery ||
     containsSub (("palindromic").toList) lowerQuery then
    { f with is_palindrome := some true }
  else f

/-- Rule 2: the word-count regex; the filter is set only when the captured
numeral maps to a defined count. -/
def ruleWordCount (lowerQuery : JStr) (f : Filters) : Filters :=
  match findWordPhrase lowerQuery with
  | some numStr =>
    match wordCountOf numStr with
    | some c => { f with word_count := some c }
    | none => f
  | none => f

/-- Rule 3: the length-regex `while` loop. -/
def ruleLength (lowerQuery : JStr) (f : Filters) : Filters :=
  (findLenMatches lowerQuery).foldl applyLenMatch f

/-- Rule 4: the contains-character regexes, then the `first vowel` fallback. -/
def ruleContains (lowerQuery : JStr) (f : Filters) : Filters :=
  match findContains1 lowerQuery with
  | some c => { f with contains_character := some [c] }
  | none =>
    match findContains2 lowerQuery with
    | some c => { f with contains_character := some [c] }
    | none =>
      if containsSub (("first vowel").toList) lowerQuery then
        { f with contains_character := some ['a'] }
      else f

/-- The filter set accumulated by `parseNaturalLanguageQuery` before its
conflict and emptiness checks: the four rule blocks applied in source order
to the empty filter object, over the lowercased query. -/
def buildFilters (query : JStr) : Filters :=
  let lowerQuery := jsToLower query
  ruleContains lowerQuery (ruleLength lowerQuery (ruleWordCount lowerQuery
    (rulePalindrome lowerQuery {})))

/-- The two failure outcomes of the parser, with their HTTP codes. -/
inductive ParseErr where
  | conflict
  | unparseable
deriving DecidableEq, Repr

def ParseErr.code : ParseErr → Nat
  | .conflict => 422
  | .unparseable => 400

/-- The `min_length > max_length` test shared by the parser's conflict check
and variant B's `GET /strings` handler (both fire only when both bounds are
present). -/
def hasLenConflict : Option Int → Option Int → Bool
  | some m, some mx => decide (m > mx)
  | _, _ => false

/-- Source `parseNaturalLanguageQuery` (variant A): accumulate filters, then
report a 422 conflict when both bounds are present with `min > max`, a 400
unparseable error when no filter was set, and the filters otherwise. -/
def parseNaturalLanguageQuery (query : JStr) : Except ParseErr Filters :=
  let filters := buildFilters query
  if hasLenConflict filters.min_length filters.max_length then .error .conflict
  else if filters = {} then .error .unparseable
  else .ok filters

/-! ## Variant B natural-language parser (`parseNlQuery`) -/

/-- JavaScript's `\w` class, `[A-Za-z0-9_]` (used for `\b` boundaries). -/
def isWordChar (c : Char) : Bool :=
  (decide ('a' ≤ c) && decide (c ≤ 'z')) || (decide ('A' ≤ c) && decide (c ≤ 'Z')) ||
  c.isDigit || c == '_'

/-- `\b` after a just-matched word character: the remainder must be empty or
start with a non-word character. -/
def boundaryAfter : JStr → Bool
  | [] => true
  | c :: _ => !isWordChar c

/-- `/\b(single|one) word\b/.test(lower)`: scan with the previous character
carried along for the leading word boundary. -/
def bSingleOneWordFrom (prev : Option Char) : JStr → Bool
  | [] => false
  | c :: cs =>
    (let boundaryBefore := match prev with
      | none => true
      | some p => !isWordChar p
     boundaryBefore &&
       (match matchLit (("single word").toList) (c :: cs) with
        | some rest => boundaryAfter rest
        | none =>
          match matchLit (("one word").toList) (c :: cs) with
          | some rest => boundaryAfter rest
          | none => false)) ||
    bSingleOneWordFrom (some c) cs

/-- `/longer than (\d+) (characters|chars)?/` anchored at the head: the
trailing optional group cannot fail, so the regex reduces to the literal,
a digit run, and the literal space. -/
def matchBLongerSpaceAt (l : JStr) : Option Nat :=
  match matchLit (("longer than ").toList) l with
  | none => none
  | some r =>
    let ds := r.takeWhile Char.isDigit
    if ds.isEmpty then none
    else
      match r.dropWhile Char.isDigit with
      | ' ' :: _ => some (digitsToNat ds)
      | _ => none

/-- `/longer than (\d+)\b/` anchored at the head.  `\b` between two digits
never holds, so backtracking the greedy `\d+` cannot help and the boundary is
checked after the maximal run. -/
def matchBLongerAt (l : JStr) : Option Nat :=
  match matchLit (("longer than ").toList) l with
  | none => none
  | some r =>
    let ds := r.takeWhile Char.isDigit
    if ds.isEmpty then none
    else if boundaryAfter (r.dropWhile Char.isDigit) then some (digitsToNat ds)
    else none

/-- The candidate remainders after the optional groups of
`contain(?:ing)?(?: the)?(?: letter)?`, in the engine's backtracking order
(each greedy option taken first). -/
def bContainCandidates (r : JStr) : List JStr :=
  let o1 := match matchLit (("ing").toList) r with
    | some t => [t, r]
    | none => [r]
  let o2 := o1.flatMap (fun x =>
    match matchLit ((" the").toList) x with
    | some t => [t, x]
    | none => [x])
  o2.flatMap (fun x =>
    match matchLit ((" letter").toList) x with
    | some t => [t, x]
    | none => [x])

/-- `/(?:contain(?:ing)?(?: the)?(?: letter)? )([a-z])\b/` anchored at the
head: after the optional groups come a literal space, the captured letter,
and a word boundary. -/
def matchBContainAt (l : JStr) : Option Char :=
  match matchLit (("contain").toList) l with
  | none => none
  | some r =>
    (bContainCandidates r).findSome? (fun x =>
      match x with
      | ' ' :: c :: rest =>
        if ('a' ≤ c ∧ c ≤ 'z') ∧ boundaryAfter rest = true then some c else none
      | _ => none)

/-- The filter set accumulated by variant B's `parseNlQuery`, rule by rule in
source order; note that a `first vowel` occurrence overwrites any
`contains_character` set by the `contain…` regex (two separate statements,
not an `else`). -/
def buildFiltersB (q : JStr) : Filters :=
  let lower := jsToLower q
  let f0 : Filters := {}
  let f1 := if bSingleOneWordFrom none lower then { f0 with word_count := some 1 } else f0
  let f2 :=
    if containsSub (("palindr").toList) lower || containsSub (("palindrom").toList) lower ||
       containsSub (("palind").toList) lower then
      { f1 with is_palindrome := some true }
    else f1
  let f3 :=
    match scanFor matchBLongerSpaceAt lower with
    | some n => { f2 with min_length := some ((n : Int) + 1) }
    | none =>
      match scanFor matchBLongerAt lower with
      | some n => { f2 with min_length := some ((n : Int) + 1) }
      | none => f2
  let f4 :=
    match scanFor matchBContainAt lower with
    | some c => { f3 with contains_character := some [c] }
    | none => f3
  if containsSub (("first vowel").toList) lower then
    { f4 with contains_character := some ['a'] }
  else f4

/-- Source `parseNlQuery` (variant B): `none` models the thrown
`Unable to parse natural language query` (mapped to HTTP 400 by the
handler); on success the handler also echoes the original query, which
carries no further information. -/
def parseNlQuery (q : JStr) : Option Filters :=
  let parsed := buildFiltersB q
  if parsed = {} then none else some parsed

/-! ## Filter matching and the listing handlers -/

/-- A stored record, as far as matching is concerned (`id` and `created_at`
play no role in any claim). -/
structure StringRecord where
  value : JStr
  properties : PropertyBundle
deriving DecidableEq, Repr

/-- Source `applyFilters` (variant A).  The source's sequence of
`if (present && violated) return false` checks is folded into the
equivalent short-circuit conjunction of pass conditions.  The
`contains_character` check is `item.value.toLowerCase()
.includes(filters.contains_character.toLowerCase())`, a code-unit substring
search on the original value. -/
def applyFilters (item : StringRecord) (filters : Filters) : Bool :=
  let props := item.properties
  (match filters.is_palindrome with
   | none => true
   | some b => props.is_palindrome == b) &&
  (match filters.min_length with
   | none => true
   | some m => !decide ((props.length : Int) < m)) &&
  (match filters.max_length with
   | none => true
   | some mx => !decide ((props.length : Int) > mx)) &&
  (match filters.word_count with
   | none => true
   | some w => (props.word_count : Int) == w) &&
  (match filters.contains_character with
   | none => true
   | some ch => containsSeq (utf16Units (jsToLower ch)) (utf16Units (jsToLower item.value)))

/-- Variant A `GET /strings` query parameters, as received (raw strings). -/
structure RawQuery where
  is_palindrome : Option JStr := none
  min_length : Option JStr := none
  max_length : Option JStr := none
  word_count : Option JStr := none
  contains_character : Option JStr := none

/-- `is_palindrome` must be the literal `true` or `false`. -/
def parseBoolParam : Option JStr → Except String (Option Bool)
  | none => .ok none
  | some s =>
    if s = ("true").toList then .ok (some true)
    else if s = ("false").toList then .ok (some false)
    else .error "is_palindrome must be true or false (400)"

/-- `parseInt` then `isNaN(v) || v < 0` check, for the numeric parameters. -/
def parseNumParam (label : String) : Option JStr → Except String (Option Int)
  | none => .ok none
  | some s =>
    match jsParseInt s with
    | none => .error label
    | some v => if v < 0 then .error label else .ok (some v)

/-- Variant A `GET /strings` parameter validation, in source order.  The
single-character check on `contains_character` is commented out in the
source, so the raw string passes through unchecked — and there is no
`min_length > max_length` conflict check anywhere on this path. -/
def doc1ParseListQuery (q : RawQuery) : Except String Filters := do
  let p ← parseBoolParam q.is_palindrome
  let mn ← parseNumParam "min_length must be a non-negative integer (400)" q.min_length
  let mx ← parseNumParam "max_length must be a non-negative integer (400)" q.max_length
  let wc ← parseNumParam "word_count must be a non-negative integer (400)" q.word_count
  pure { is_palindrome := p, word_count := wc, min_length := mn, max_length := mx,
         contains_character := q.contains_character }

/-- Variant A `GET /strings`: validate parameters, then filter the store with
`applyFilters` and answer 200 with the (possibly empty) result list.  A
conflicting bound pair is never detected here. -/
def doc1ListStrings (q : RawQuery) (items : List StringRecord) :
    Except String (List StringRecord) := do
  let f ← doc1ParseListQuery q
  pure (items.filter (fun it => applyFilters it f))

/-- The SQL `WHERE` clauses the sqlite variants attach, as a predicate on a
stored record: `is_palindrome = 1/0`, `length >= ?`, `length <= ?`,
`word_count = ?`, `instr(value_lower, ?) > 0` with the probe lowercased
(`value_lower` is the stored `value.toLowerCase()`).  Variant C's listing
handler and both sqlite variants' natural-language handlers execute these
clauses; variant B's listing handler never reaches its query (see
`doc2ListStrings`). -/
def sqlClausesMatch (f : Filters) (item : StringRecord) : Bool :=
  let props := item.properties
  (match f.is_palindrome with
   | none => true
   | some b => props.is_palindrome == b) &&
  (match f.min_length with
   | none => true
   | some m => decide (m ≤ (props.length : Int))) &&
  (match f.max_length with
   | none => true
   | some mx => decide ((props.length : Int) ≤ mx)) &&
  (match f.word_count with
   | none => true
   | some w => (props.word_count : Int) == w) &&
  (match f.contains_character with
   | none => true
   | some ch => containsSeq (jsToLower ch) (jsToLower item.value))

/-- JavaScript `Number(s)` restricted to optionally-signed decimal integers:
after trimming whitespace, the empty string is `0`, a full signed digit run
is its value, and anything else is `none`.  `none` stands for every value
the handlers' `!Number.isInteger(v)` test rejects (`NaN` as well as
fractional results); integer-valued exotic forms (`"5.0"`, `"1e2"`, `"0x14"`)
are outside the modelled inputs. -/
def jsNumberInt (s : JStr) : Option Int :=
  let t := ((s.dropWhile jsWhitespace).reverse.dropWhile jsWhitespace).reverse
  match t with
  | [] => some 0
  | '-' :: rest =>
    if rest ≠ [] ∧ rest.all Char.isDigit then some (-(digitsToNat rest : Int)) else none
  | '+' :: rest =>
    if rest ≠ [] ∧ rest.all Char.isDigit then some ((digitsToNat rest : Int)) else none
  | t' => if t'.all Char.isDigit then some ((digitsToNat t' : Int)) else none

/-- The possible responses of variant B's `GET /strings`. -/
inductive Doc2ListOutcome where
  /-- 200 with the filtered rows. -/
  | ok (results : List StringRecord)
  /-- 400, for a malformed parameter value. -/
  | badRequest
  /-- 422, the `min_length cannot be greater than max_length` response. -/
  | conflict
  /-- 500: either the uncaught `TypeError` from `clauses.push` on the plain
  object `{}` (handled by the Express error middleware), or the caught
  failure inside the handler's `try`. -/
  | serverError
deriving DecidableEq, Repr

/-- One numeric-parameter block of variant B's listing handler
(`const v = Number(...); if (!Number.isInteger(v) || v < 0) return 400;
clauses.push(...)`): a malformed or negative value answers 400, and a valid
one reaches the `push` on the plain object `{}` and throws (500). -/
def doc2NumParamOutcome (s : JStr) : Doc2ListOutcome :=
  match jsNumberInt s with
  | none => .badRequest
  | some v => if v < 0 then .badRequest else .serverError

/-- Variant B `GET /strings`, faithful to the handler's control flow.
`clauses` and `params` are initialized as plain objects `{}`, which have no
`push` method: the first clause-generating filter value throws `TypeError`
and Express answers 500 — before `filtersApplied` is assigned, so the
`min_length > max_length` check runs (if reached at all) with both bounds
unrecorded and its 422 response is dead code.  A request with no filters
survives to `db.prepare(sql).all(...params)`, where spreading the
non-iterable `{}` throws inside the `try` (caught: 500).  The handler can
therefore only ever answer 400 or 500; its 200 and 422 paths are
unreachable. -/
def doc2ListStrings (q : RawQuery) : Doc2ListOutcome :=
  match q.is_palindrome with
  | some s =>
    if s = ("true").toList ∨ s = ("false").toList then .serverError else .badRequest
  | none =>
    match q.min_length with
    | some s => doc2NumParamOutcome s
    | none =>
      match q.max_length with
      | some s => doc2NumParamOutcome s
      | none =>
        -- the conflict check: by this point neither `filtersApplied` bound
        -- was recorded (each recording is preceded by the throwing `push`)
        if hasLenConflict none none then .conflict
        else
          match q.word_count with
          | some s => doc2NumParamOutcome s
          | none =>
            match q.contains_character with
            | some s => if utf16Len s = 1 then .serverError else .badRequest
            | none => .serverError

/-- Variant C `GET /strings`: `clauses`/`params` are real arrays here,
validation uses `parseInt` (400 on `NaN` or negative) and enforces the
single-character rule for `contains_character`, and there is no
`min_length > max_length` check at all — the clauses are applied directly,
so a conflicting bound pair is silently matched (200 with an empty result
list). -/
def doc3ListStrings (q : RawQuery) (items : List StringRecord) :
    Except String (List StringRecord) := do
  let p ← parseBoolParam q.is_palindrome
  let mn ← parseNumParam "Invalid min_length (400)" q.min_length
  let mx ← parseNumParam "Invalid max_length (400)" q.max_length
  let wc ← parseNumParam "Invalid word_count (400)" q.word_count
  let cc ← match q.contains_character with
    | none => Except.ok none
    | some s =>
      if utf16Len s = 1 then Except.ok (some s)
      else Except.error "contains_character must be a single character (400)"
  pure (items.filter (fun it => sqlClausesMatch
    { is_palindrome := p, word_count := wc, min_length := mn, max_length := mx,
      contains_character := cc } it))

/-! ## Helper lemmas -/

/-- U+1F600, the astral (non-BMP) character used in counterexamples. -/
def emoChar : Char := Char.ofNat 128512

theorem char_toNat_injective : Function.Injective Char.toNat := by
  intro a b h
  exact Char.eq_of_val_eq (UInt32.eq_of_toBitVec_eq (BitVec.toNat_injective h))

theorem char_ofNat_toNat {n : Nat} (h : n < 55296) : (Char.ofNat n).toNat = n := by
  have hv : n.isValidChar := Or.inl h
  simp only [Char.ofNat, dif_pos hv]
  rfl

theorem jsToLowerChar_toNat_lt {c : Char} (h : c.toNat < 65536) :
    (jsToLowerChar c).toNat < 65536 := by
  unfold jsToLowerChar
  split
  · next hc =>
    have h90 : c.toNat ≤ 90 := hc.2
    have := char_ofNat_toNat (n := c.toNat + 32) (by omega)
    omega
  · exact h

theorem jsToLower_bmp {s : JStr} (h : ∀ c ∈ s, c.toNat < 65536) :
    ∀ c ∈ jsToLower s, c.toNat < 65536 := by
  intro c hc
  obtain ⟨a, ha, rfl⟩ := List.mem_map.mp hc
  exact jsToLowerChar_toNat_lt (h a ha)

theorem utf16Char_bmp {c : Char} (h : c.toNat < 65536) : utf16Char c = [c.toNat] := by
  simp [utf16Char, h]

theorem utf16Units_bmp {s : JStr} (h : ∀ c ∈ s, c.toNat < 65536) :
    utf16Units s = s.map Char.toNat := by
  induction s with
  | nil => rfl
  | cons c cs ih =>
    have hc := h c (List.mem_cons_self c cs)
    have hcs : ∀ x ∈ cs, x.toNat < 65536 := fun x hx => h x (List.mem_cons_of_mem _ hx)
    simp [utf16Units, utf16Char_bmp hc] at ih ⊢
    exact ih hcs

theorem utf16Len_bmp {s : JStr} (h : ∀ c ∈ s, c.toNat < 65536) :
    utf16Len s = s.length := by
  simp [utf16Len, utf16Units_bmp h]

/-! ### Frequency-map invariants -/

theorem freqInsert_keys (m : List (Char × Nat)) (c : Char) :
    (freqInsert m c).map Prod.fst =
      if c ∈ m.map Prod.fst then m.map Prod.fst else m.map Prod.fst ++ [c] := by
  unfold freqInsert
  by_cases h : c ∈ m.map Prod.fst
  · obtain ⟨p, hp, hpc⟩ := List.mem_map.mp h
    have hany : m.any (fun p => p.1 == c) = true := by
      refine List.any_eq_true.mpr ⟨p, hp, ?_⟩
      exact beq_iff_eq.mpr hpc
    simp only [hany, if_true, h, if_pos]
    rw [List.map_map]
    refine List.map_congr_left ?_
    intro q _
    by_cases hq : q.1 = c
    · simp [hq]
    · simp [hq]
  · have hany : m.any (fun p => p.1 == c) = false := by
      rw [List.any_eq_false]
      intro p hp
      intro hbeq
      exact h (List.mem_map.mpr ⟨p, hp, beq_iff_eq.mp hbeq⟩)
    simp [hany, h]

theorem freqInsert_keys_nodup {m : List (Char × Nat)} (hm : (m.map Prod.fst).Nodup)
    (c : Char) : ((freqInsert m c).map Prod.fst).Nodup := by
  rw [freqInsert_keys]
  by_cases h : c ∈ m.map Prod.fst
  · simpa [h] using hm
  · simp only [h, if_false]
    rw [List.nodup_append]
    exact ⟨hm, List.nodup_singleton c, by simpa using h⟩

theorem mem_freqInsert_keys (m : List (Char × Nat)) (c x : Char) :
    x ∈ (freqInsert m c).map Prod.fst ↔ x ∈ m.map Prod.fst ∨ x = c := by
  rw [freqInsert_keys]
  by_cases h : c ∈ m.map Prod.fst
  · simp only [h, if_true]
    constructor
    · exact fun hx => Or.inl hx
    · rintro (hx | rfl)
      · exact hx
      · exact h
  · simp [h]

theorem freq_foldl_keys_nodup :
    ∀ (l : JStr) (m : List (Char × Nat)), (m.map Prod.fst).Nodup →
      ((l.foldl freqInsert m).map Prod.fst).Nodup := by
  intro l
  induction l with
  | nil => intro m hm; exact hm
  | cons c cs ih =>
    intro m hm
    exact ih (freqInsert m c) (freqInsert_keys_nodup hm c)

theorem mem_freq_foldl_keys :
    ∀ (l : JStr) (m : List (Char × Nat)) (x : Char),
      x ∈ (l.foldl freqInsert m).map Prod.fst ↔ x ∈ m.map Prod.fst ∨ x ∈ l := by
  intro l
  induction l with
  | nil => intro m x; simp
  | cons c cs ih =>
    intro m x
    rw [List.foldl_cons, ih, mem_freqInsert_keys]
    constructor
    · rintro ((hx | rfl) | hx)
      · exact Or.inl hx
      · exact Or.inr (by simp)
      · exact Or.inr (List.mem_cons_of_mem _ hx)
    · rintro (hx | hx)
      · exact Or.inl (Or.inl hx)
      · rcases List.mem_cons.mp hx with rfl | hx
        · exact Or.inl (Or.inr rfl)
        · exact Or.inr hx

theorem charFrequencyMap_keys_nodup (s : JStr) :
    ((charFrequencyMap s).map Prod.fst).Nodup :=
  freq_foldl_keys_nodup s [] (by simp)

theorem mem_charFrequencyMap_keys (s : JStr) (x : Char) :
    x ∈ (charFrequencyMap s).map Prod.fst ↔ x ∈ s := by
  rw [charFrequencyMap, mem_freq_foldl_keys]
  simp

/-- A duplicate-free list has the same length as the deduplication of any
list with the same members. -/
theorem nodup_length_eq_dedup_length {l r : List Char} (hl : l.Nodup)
    (h : ∀ x, x ∈ l ↔ x ∈ r) : l.length = r.dedup.length := by
  have h1 : l.toFinset = r.toFinset := by
    apply Finset.ext
    intro x
    rw [List.mem_toFinset, List.mem_toFinset]
    exact h x
  have h2 : l.toFinset.card = l.dedup.length := List.card_toFinset l
  have h3 : r.toFinset.card = r.dedup.length := List.card_toFinset r
  rw [List.Nodup.dedup hl] at h2
  rw [h1] at h2
  omega

/-- In-place increment leaves a map without the key untouched. -/
theorem freq_inc_of_not_mem {m : List (Char × Nat)} {c : Char}
    (h : c ∉ m.map Prod.fst) :
    m.map (fun p => if p.1 = c then (p.1, p.2 + 1) else p) = m := by
  induction m with
  | nil => rfl
  | cons p ps ih =>
    have hp : p.1 ≠ c := by
      intro hc
      exact h (by simp [hc])
    have hps : c ∉ ps.map Prod.fst := fun hc => h (by simp [hc])
    simp [hp, ih hps]

/-- With duplicate-free keys, one `freqInsert` adds exactly one to the total
count. -/
theorem freqInsert_total {m : List (Char × Nat)} (hm : (m.map Prod.fst).Nodup)
    (c : Char) :
    ((freqInsert m c).map Prod.snd).sum = (m.map Prod.snd).sum + 1 := by
  unfold freqInsert
  by_cases h : c ∈ m.map Prod.fst
  · have hany : m.any (fun p => p.1 == c) = true := by
      obtain ⟨p, hp, hpc⟩ := List.mem_map.mp h
      exact List.any_eq_true.mpr ⟨p, hp, beq_iff_eq.mpr hpc⟩
    simp only [hany, if_true]
    clear hany
    induction m with
    | nil => simp at h
    | cons p ps ih =>
      rcases List.mem_map.mp h with ⟨q, hq, hqc⟩
      by_cases hp : p.1 = c
      · have hcps : c ∉ ps.map Prod.fst := by
          have := hm
          simp only [List.map_cons, List.nodup_cons] at this
          rw [hp] at this
          exact this.1
        simp [hp, freq_inc_of_not_mem hcps]
        omega
      · have hps : (ps.map Prod.fst).Nodup := by
          simp only [List.map_cons, List.nodup_cons] at hm
          exact hm.2
        have hcin : c ∈ ps.map Prod.fst := by
          rcases List.mem_cons.mp hq with rfl | hq2
          · exact absurd hqc hp
          · exact List.mem_map.mpr ⟨q, hq2, hqc⟩
        have := ih hps hcin
        simp only [List.map_cons, List.sum_cons, hp, if_false] at this ⊢
        simp [hp] at this ⊢
        omega
  · have hany : m.any (fun p => p.1 == c) = false := by
      rw [List.any_eq_false]
      intro p hp hbeq
      exact h (List.mem_map.mpr ⟨p, hp, beq_iff_eq.mp hbeq⟩)
    simp [hany]

theorem freq_foldl_total :
    ∀ (l : JStr) (m : List (Char × Nat)), (m.map Prod.fst).Nodup →
      ((l.foldl freqInsert m).map Prod.snd).sum = (m.map Prod.snd).sum + l.length := by
  intro l
  induction l with
  | nil => intro m _; simp
  | cons c cs ih =>
    intro m hm
    rw [List.foldl_cons, ih (freqInsert m c) (freqInsert_keys_nodup hm c),
        freqInsert_total hm c]
    simp
    omega

/-- Total count of the frequency map is the code-point count of the input. -/
theorem charFrequencyMap_total (s : JStr) :
    ((charFrequencyMap s).map Prod.snd).sum = s.length := by
  have := freq_foldl_total s [] (by simp)
  simpa [charFrequencyMap] using this

/-- Deduplication length is preserved by mapping with an injective function. -/
theorem dedup_length_map_inj {f : Char → Nat} (hf : Function.Injective f) :
    ∀ l : List Char, (l.map f).dedup.length = l.dedup.length := by
  intro l
  induction l with
  | nil => simp
  | cons c cs ih =>
    by_cases h : c ∈ cs
    · have h2 : f c ∈ cs.map f := List.mem_map_of_mem f h
      simp [List.dedup_cons_of_mem, h, h2, ih]
    · have h2 : f c ∉ cs.map f := by
        intro hm
        obtain ⟨a, ha, hfa⟩ := List.mem_map.mp hm
        exact h (hf hfa ▸ ha)
      simp [List.dedup_cons_of_not_mem, h, h2, ih]

/-! ### Hex-digest shape -/

/-- A lowercase hexadecimal character: `0`–`9` or `a`–`f`. -/
def isLowerHexChar (c : Char) : Bool :=
  (decide (48 ≤ c.toNat) && decide (c.toNat ≤ 57)) ||
  (decide (97 ≤ c.toNat) && decide (c.toNat ≤ 102))

theorem hexDigit_isLowerHex {n : Nat} (h : n < 16) :
    isLowerHexChar (hexDigit n) = true := by
  interval_cases n <;> decide

theorem wordHex_length (w : Nat) : (wordHex w).length = 8 := rfl

theorem wordHex_all (w : Nat) : (wordHex w).all isLowerHexChar = true := by
  simp only [wordHex, List.all_cons, List.all_nil, Bool.and_true]
  repeat rw [hexDigit_isLowerHex (Nat.mod_lt _ (by omega))]
  simp

theorem sha256HexBytes_length (msg : List Nat) : (sha256HexBytes msg).length = 64 := by
  simp [sha256HexBytes, wordHex_length]

theorem sha256HexBytes_all (msg : List Nat) :
    (sha256HexBytes msg).all isLowerHexChar = true := by
  simp [sha256HexBytes, List.all_append, wordHex_all]

/-! ### Parser projections -/

/-- The contribution of one length-regex match to the lower bound:
`N + 1` for the exclusive `than` phrasings, `N` for `at least`; the inert
captures and the upper-bound phrases contribute nothing. -/
def minContribOf (pv : LenPhrase × Int) : Option Int :=
  match pv.1 with
  | .longerThan => some (pv.2 + 1)
  | .greaterThan => some (pv.2 + 1)
  | .atLeast => some pv.2
  | _ => none

theorem applyLenMatch_min (f : Filters) (pv : LenPhrase × Int) :
    (applyLenMatch f pv).min_length =
      match minContribOf pv with
      | some v => updMin f.min_length v
      | none => f.min_length := by
  rcases pv with ⟨p, n⟩
  cases p <;> rfl

theorem applyLenMatch_word (f : Filters) (pv : LenPhrase × Int) :
    (applyLenMatch f pv).word_count = f.word_count := by
  rcases pv with ⟨p, n⟩
  cases p <;> rfl

theorem foldl_applyLenMatch_min :
    ∀ (ms : List (LenPhrase × Int)) (f : Filters),
      ((ms.foldl applyLenMatch f).min_length) =
        (ms.filterMap minContribOf).foldl updMin f.min_length := by
  intro ms
  induction ms with
  | nil => intro f; rfl
  | cons pv rest ih =>
    intro f
    rw [List.foldl_cons, ih, applyLenMatch_min]
    rcases hc : minContribOf pv with _ | v <;> simp [List.filterMap_cons, hc]

theorem foldl_applyLenMatch_word :
    ∀ (ms : List (LenPhrase × Int)) (f : Filters),
      ((ms.foldl applyLenMatch f).word_count) = f.word_count := by
  intro ms
  induction ms with
  | nil => intro f; rfl
  | cons pv rest ih =>
    intro f
    rw [List.foldl_cons, ih, applyLenMatch_word]

theorem rulePalindrome_min (l : JStr) (f : Filters) :
    (rulePalindrome l f).min_length = f.min_length := by
  unfold rulePalindrome
  split <;> rfl

theorem rulePalindrome_word (l : JStr) (f : Filters) :
    (rulePalindrome l f).word_count = f.word_count := by
  unfold rulePalindrome
  split <;> rfl

theorem ruleWordCount_min (l : JStr) (f : Filters) :
    (ruleWordCount l f).min_length = f.min_length := by
  unfold ruleWordCount
  split
  · split <;> rfl
  · rfl

theorem ruleWordCount_word (l : JStr) (f : Filters) (h : f.word_count = none) :
    (ruleWordCount l f).word_count = (findWordPhrase l).bind wordCountOf := by
  unfold ruleWordCount
  rcases hf : findWordPhrase l with _ | ns
  · simpa using h
  · simp only [Option.bind_some]
    rcases hw : wordCountOf ns with _ | c
    · simpa [hw] using h
    · simp [hw]

theorem ruleContains_min (l : JStr) (f : Filters) :
    (ruleContains l f).min_length = f.min_length := by
  unfold ruleContains
  split
  · rfl
  · split
    · rfl
    · split <;> rfl

theorem ruleContains_word (l : JStr) (f : Filters) :
    (ruleContains l f).word_count = f.word_count := by
  unfold ruleContains
  split
  · rfl
  · split
    · rfl
    · split <;> rfl

/-- The `min_length` produced by the rule pipeline is exactly the fold of
`Math.max`-with-truthiness over the lower-bound contributions. -/
theorem buildFilters_min (q : JStr) :
    (buildFilters q).min_length =
      ((findLenMatches (jsToLower q)).filterMap minContribOf).foldl updMin none := by
  unfold buildFilters ruleLength
  rw [ruleContains_min, foldl_applyLenMatch_min, ruleWordCount_min, rulePalindrome_min]

/-- The `word_count` produced by the rule pipeline is exactly the mapped
first word-count match. -/
theorem buildFilters_word (q : JStr) :
    (buildFilters q).word_count = (findWordPhrase (jsToLower q)).bind wordCountOf := by
  unfold buildFilters ruleLength
  rw [ruleContains_word, foldl_applyLenMatch_word, ruleWordCount_word]
  rw [rulePalindrome_word]

theorem foldl_updMin_some :
    ∀ (l : List Int) (m : Int), 0 ≤ m → (∀ v ∈ l, 0 ≤ v) →
      l.foldl updMin (some m) = some (l.foldl max m) := by
  intro l
  induction l with
  | nil => intro m _ _; rfl
  | cons v vs ih =>
    intro m hm hl
    have hv : 0 ≤ v := hl v (List.mem_cons_self v vs)
    have hstep : updMin (some m) v = some (max m v) := by
      show some (if m = 0 then v else max m v) = some (max m v)
      by_cases h0 : m = 0
      · subst h0
        rw [if_pos rfl, max_eq_right hv]
      · rw [if_neg h0]
    rw [List.foldl_cons, hstep, ih (max m v) (le_trans hm (le_max_left m v))
        (fun x hx => hl x (List.mem_cons_of_mem _ hx))]
    rfl

theorem foldl_updMin_none_cons (v : Int) (vs : List Int) (h : ∀ x ∈ v :: vs, 0 ≤ x) :
    (v :: vs).foldl updMin none = some (vs.foldl max v) := by
  have hv : 0 ≤ v := h v (List.mem_cons_self v vs)
  rw [List.foldl_cons]
  exact foldl_updMin_some vs v hv (fun x hx => h x (List.mem_cons_of_mem _ hx))

theorem matchLenAt_num_nonneg {l : JStr} {pv : LenPhrase × Int} {rest : JStr}
    (h : matchLenAt l = some (pv, rest)) : 0 ≤ pv.2 := by
  unfold matchLenAt at h
  rcases hfs : lenPhrases.findSome?
      (fun pr => (matchLit pr.2 l).map (fun r => (pr.1, r))) with _ | pr
  · rw [hfs] at h
    exact absurd h (by simp)
  · rw [hfs] at h
    rcases pr with ⟨p, r⟩
    simp only at h
    split at h
    · exact absurd h (by simp)
    · have h2 := Option.some.inj h
      have h3 : pv = (p, ((digitsToNat ((r.dropWhile jsWhitespace).takeWhile Char.isDigit) : Nat) : Int)) :=
        ((Prod.mk.inj h2).1).symm
      rw [h3]
      exact Int.natCast_nonneg _

theorem findLenMatchesAux_nonneg :
    ∀ (fuel : Nat) (l : JStr) (pv : LenPhrase × Int),
      pv ∈ findLenMatchesAux fuel l → 0 ≤ pv.2 := by
  intro fuel
  induction fuel with
  | zero => intro l pv h; exact absurd h (by simp [findLenMatchesAux])
  | succ n ih =>
    intro l pv h
    cases l with
    | nil => exact absurd h (by simp [findLenMatchesAux])
    | cons c cs =>
      unfold findLenMatchesAux at h
      rcases hm : matchLenAt (c :: cs) with _ | pr
      · rw [hm] at h
        exact ih cs pv h
      · rw [hm] at h
        rcases pr with ⟨pv0, rest⟩
        rcases List.mem_cons.mp h with rfl | h2
        · exact matchLenAt_num_nonneg hm
        · exact ih rest pv h2

theorem minContribs_nonneg (q : JStr) :
    ∀ v ∈ (findLenMatches (jsToLower q)).filterMap minContribOf, 0 ≤ v := by
  intro v hv
  obtain ⟨pv, hpv, hmc⟩ := List.mem_filterMap.mp hv
  have hnn : 0 ≤ pv.2 := findLenMatchesAux_nonneg _ _ pv hpv
  rcases pv with ⟨p, n⟩
  cases p <;> simp [minContribOf] at hmc <;> omega

/-! ### Digit-string facts -/

theorem digit_not_ws {c : Char} (h : c.isDigit = true) : jsWhitespace c = false := by
  have hrange : 48 ≤ c.toNat ∧ c.toNat ≤ 57 := by
    have hd : (decide ('0' ≤ c) && decide (c ≤ '9')) = true := h
    simp only [Bool.and_eq_true, decide_eq_true_eq] at hd
    exact ⟨hd.1, hd.2⟩
  simp only [jsWhitespace, Bool.or_eq_false_iff, Bool.and_eq_false_iff,
    beq_eq_false_iff_ne, ne_eq, decide_eq_false_iff_not]
  omega

theorem takeWhile_all {p : Char → Bool} :
    ∀ {l : JStr}, (∀ x ∈ l, p x = true) → l.takeWhile p = l := by
  intro l
  induction l with
  | nil => intro _; rfl
  | cons c cs ih =>
    intro h
    rw [List.takeWhile_cons, h c (List.mem_cons_self c cs)]
    simp [ih (fun x hx => h x (List.mem_cons_of_mem _ hx))]

theorem wordCountOf_digits {ds : JStr} (hne : ds ≠ [])
    (hd : ∀ c ∈ ds, c.isDigit = true) :
    wordCountOf ds = some ((digitsToNat ds : Int)) := by
  have hnotword : ∀ (w : JStr) (c : Char), c ∈ w → c.isDigit = false → ds ≠ w := by
    intro w c hcw hcd heq
    subst heq
    rw [hd c hcw] at hcd
    exact Bool.noConfusion hcd
  obtain ⟨c, t, rfl⟩ : ∃ c t, ds = c :: t := by
    cases ds with
    | nil => exact absurd rfl hne
    | cons c t => exact ⟨c, t, rfl⟩
  have hc := hd c (List.mem_cons_self c t)
  unfold wordCountOf
  rw [if_neg, if_neg, if_neg]
  · unfold jsParseInt
    have hdrop : (c :: t).dropWhile jsWhitespace = c :: t := by
      rw [List.dropWhile_cons, digit_not_ws hc]
      simp
    rw [hdrop]
    have hcn : 48 ≤ c.toNat ∧ c.toNat ≤ 57 := by
      have hd2 : (decide ('0' ≤ c) && decide (c ≤ '9')) = true := hc
      simp only [Bool.and_eq_true, decide_eq_true_eq] at hd2
      exact ⟨hd2.1, hd2.2⟩
    split
    · next heq =>
      have : c = '-' := (List.cons.inj heq).1
      rw [this] at hcn
      simp at hcn
    · next heq =>
      have : c = '+' := (List.cons.inj heq).1
      rw [this] at hcn
      simp at hcn
    · unfold jsParseIntDigits
      rw [takeWhile_all hd]
      simp
  · exact hnotword _ 't' (by decide) (by decide)
  · exact hnotword _ 't' (by decide) (by decide)
  · intro hor
    rcases hor with heq | heq
    · exact hnotword _ 's' (by decide) (by decide) heq
    · exact hnotword _ 'o' (by decide) (by decide) heq

/-! ## Claim theorems -/

/-- C1 (counterexample): the claim says `analyze(s).length` counts Unicode
code points, with a character outside the BMP counting as one unit.  On
U+1F600 the code's `value.length` is 2 (its UTF-16 units), while the
code-point count is 1 — so the claim fails.  (Variant B's
`computeProperties` computes the identical `value.length`.) -/
theorem c1_counterexample :
    (analyzeString [emoChar]).length = 2 ∧ ([emoChar] : JStr).length = 1 :=
  ⟨by decide, by decide⟩

/-- C1 (amended): `analyze(s).length` is the UTF-16 code-unit count of `s`;
for strings all of whose characters lie in the Basic Multilingual Plane it
coincides with the code-point count. -/
theorem c1_length_codepoints_bmp (s : JStr) (h : ∀ c ∈ s, c.toNat < 65536) :
    (analyzeString s).length = s.length := by
  show utf16Len s = s.length
  exact utf16Len_bmp h

theorem c1_length_codepoints_bmp_witness :
    (analyzeString (("abc").toList)).length = (("abc").toList).length :=
  c1_length_codepoints_bmp _ (by decide)

/-- C2 (counterexample): the claim says `is_palindrome` holds iff the
lowercase-folded string equals its code-point reversal (multi-byte
characters never split).  U+1F600 is its own code-point reversal after
folding, yet the code reports `false`, because `split('').reverse()`
reverses the two surrogate halves. -/
theorem c2_counterexample :
    (analyzeString [emoChar]).is_palindrome = false ∧
    jsToLower [emoChar] = (jsToLower [emoChar]).reverse :=
  ⟨by decide, by decide⟩

/-- C2 (amended): `is_palindrome` is true iff the lowercase-folded value
equals its own reversal at UTF-16 code-unit granularity (so surrogate pairs
are split); lowercasing is the only normalization.  For strings whose
characters all lie in the BMP this is exactly the claimed code-point
reversal. -/
theorem c2_palindrome_fold_reverse (s : JStr) :
    ((analyzeString s).is_palindrome = true ↔
      utf16Units (jsToLower s) = (utf16Units (jsToLower s)).reverse) ∧
    ((∀ c ∈ s, c.toNat < 65536) →
      ((analyzeString s).is_palindrome = true ↔ jsToLower s = (jsToLower s).reverse)) := by
  have hgen : (analyzeString s).is_palindrome = true ↔
      utf16Units (jsToLower s) = (utf16Units (jsToLower s)).reverse := by
    show isPalindrome s = true ↔ _
    unfold isPalindrome
    exact beq_iff_eq
  refine ⟨hgen, fun hbmp => ?_⟩
  rw [hgen]
  rw [utf16Units_bmp (jsToLower_bmp hbmp), ← List.map_reverse]
  constructor
  · intro h
    exact List.map_injective_iff.mpr char_toNat_injective h
  · intro h
    exact congrArg (List.map Char.toNat) h

theorem c2_palindrome_fold_reverse_witness :
    (analyzeString (("Madam").toList)).is_palindrome = true :=
  ((c2_palindrome_fold_reverse _).2 (by decide)).mpr (by decide)

/-- C9 (counterexample): the claim says `unique_characters` equals the
number of distinct keys of `character_frequency`.  In variant A,
`uniqueCharacters` counts distinct UTF-16 code units (`value.split('')`),
while the frequency map iterates code points: on U+1F600 the former is 2,
the latter has the single key U+1F600. -/
theorem c9_counterexample :
    (analyzeString [emoChar]).unique_characters = 2 ∧
    charFrequencyMap [emoChar] = [(emoChar, 1)] :=
  ⟨by decide, by decide⟩

/-- C9 (amended): in variant B (`computeProperties`), `unique_characters`
always equals the number of distinct keys of the frequency map; in variant A
(`analyzeString`) it counts distinct UTF-16 code units, which agrees with
the key count exactly for BMP-only strings. -/
theorem c9_unique_eq_freq_keys (s : JStr) :
    ((computeProperties s).unique_characters =
      ((charFrequencyMap s).map Prod.fst).dedup.length) ∧
    ((∀ c ∈ s, c.toNat < 65536) →
      (analyzeString s).unique_characters =
        ((charFrequencyMap s).map Prod.fst).dedup.length) := by
  have hkeys_nodup := charFrequencyMap_keys_nodup s
  have hkeys_len : ((charFrequencyMap s).map Prod.fst).length = s.dedup.length :=
    nodup_length_eq_dedup_length hkeys_nodup (mem_charFrequencyMap_keys s)
  have hdedup := List.Nodup.dedup hkeys_nodup
  constructor
  · show s.dedup.length = _
    rw [hdedup, hkeys_len]
  · intro hbmp
    show (utf16Units s).dedup.length = _
    rw [utf16Units_bmp hbmp, dedup_length_map_inj char_toNat_injective, hdedup, hkeys_len]

theorem c9_unique_eq_freq_keys_witness :
    (analyzeString (("aabbc").toList)).unique_characters =
      ((charFrequencyMap (("aabbc").toList)).map Prod.fst).dedup.length :=
  (c9_unique_eq_freq_keys _).2 (by decide)

/-- C10 (counterexample): the claim says the frequency counts sum to the
`length` field.  On U+1F600 the counts sum to 1 (one code point) while
`length` is 2 (two UTF-16 units). -/
theorem c10_counterexample :
    ((charFrequencyMap [emoChar]).map Prod.snd).sum = 1 ∧
    (analyzeString [emoChar]).length = 2 :=
  ⟨by decide, by decide⟩

/-- C10 (amended): the frequency counts sum to the code-point count of the
input, which equals the `length` field exactly when every character lies in
the BMP. -/
theorem c10_freq_sum_length (s : JStr) :
    (((charFrequencyMap s).map Prod.snd).sum = s.length) ∧
    ((∀ c ∈ s, c.toNat < 65536) →
      ((charFrequencyMap s).map Prod.snd).sum = (analyzeString s).length) := by
  refine ⟨charFrequencyMap_total s, fun hbmp => ?_⟩
  rw [charFrequencyMap_total s]
  show s.length = utf16Len s
  rw [utf16Len_bmp hbmp]

theorem c10_freq_sum_length_witness :
    ((charFrequencyMap (("hello world").toList)).map Prod.snd).sum =
      (analyzeString (("hello world").toList)).length :=
  (c10_freq_sum_length _).2 (by decide)

/-- C8 (confirmed): `content_hash` (the `sha256_hash` field) is
deterministic, is by construction the hex SHA-256 of the UTF-8 bytes of the
input, and is always 64 lowercase hexadecimal characters. -/
theorem c8_content_hash_shape (s t : JStr) :
    (s = t → (analyzeString s).sha256_hash = (analyzeString t).sha256_hash) ∧
    (analyzeString s).sha256_hash = sha256HexBytes (utf8Encode s) ∧
    ((analyzeString s).sha256_hash).length = 64 ∧
    ((analyzeString s).sha256_hash).all isLowerHexChar = true := by
  refine ⟨fun h => by rw [h], rfl, ?_, ?_⟩
  · show (sha256HexBytes (utf8Encode s)).length = 64
    exact sha256HexBytes_length _
  · show (sha256HexBytes (utf8Encode s)).all isLowerHexChar = true
    exact sha256HexBytes_all _

theorem c8_content_hash_shape_witness :
    (analyzeString ([] : JStr)).sha256_hash = (analyzeString ([] : JStr)).sha256_hash ∧
    ((analyzeString ([] : JStr)).sha256_hash).length = 64 :=
  ⟨(c8_content_hash_shape [] []).1 rfl, (c8_content_hash_shape [] []).2.2.1⟩

/-- C3 (confirmed): `applyFilters` accepts a record iff every present filter
field is satisfied — `is_palindrome` and `word_count` by exact equality, the
length bounds inclusively, and `contains_character` by case-insensitive
occurrence in the original string (the code-unit substring search the code
performs); and the `madam` / `{is_palindrome: true, contains_character: "M"}`
example matches. -/
theorem c3_matches_iff_all_filters :
    (∀ (v : JStr) (f : Filters),
      applyFilters ⟨v, analyzeString v⟩ f = true ↔
        ((∀ b, f.is_palindrome = some b → (analyzeString v).is_palindrome = b) ∧
         (∀ m, f.min_length = some m → m ≤ ((analyzeString v).length : Int)) ∧
         (∀ mx, f.max_length = some mx → ((analyzeString v).length : Int) ≤ mx) ∧
         (∀ w, f.word_count = some w → ((analyzeString v).word_count : Int) = w) ∧
         (∀ ch, f.contains_character = some ch →
           containsSeq (utf16Units (jsToLower ch)) (utf16Units (jsToLower v)) = true))) ∧
    applyFilters ⟨("madam").toList, analyzeString (("madam").toList)⟩
      { is_palindrome := some true, contains_character := some (("M").toList) } = true := by
  constructor
  · intro v f
    obtain ⟨p, w, mn, mx, cc⟩ := f
    cases p <;> cases w <;> cases mn <;> cases mx <;> cases cc <;>
      simp [applyFilters, beq_iff_eq, Int.not_lt] <;> tauto
  · decide

theorem c3_matches_iff_all_filters_witness :
    containsSeq (utf16Units (jsToLower (("M").toList)))
      (utf16Units (jsToLower (("madam").toList))) = true := by
  have h := (c3_matches_iff_all_filters.1 (("madam").toList)
      { is_palindrome := some true, contains_character := some (("M").toList) }).mp
      c3_matches_iff_all_filters.2
  exact h.2.2.2.2 _ rfl

/-- C4 (counterexample): the claim says a filter set with
`min_length > max_length` always fails validation with a filter conflict and
is never silently matched.  Variant A's structured `GET /strings` has no
such check: with `min_length=20&max_length=5` it succeeds (HTTP 200) and
silently matches the conflicting filters against the store, yielding an
empty result instead of an error. -/
theorem c4_counterexample :
    doc1ListStrings
      { min_length := some (("20").toList), max_length := some (("5").toList) }
      [⟨("madam").toList, analyzeString (("madam").toList)⟩] = .ok [] := by
  rfl

/-- C4 (amended): the only effective conflict validation in the program is
variant A's natural-language parser — it never returns a conflicting set,
answering the 422 conflict distinctly from the 400 unparseable outcome, and
`{min_length: 20, max_length: 5}` is such a conflict.  No structured-listing
path reports a conflict: variant A matches silently (`c4_counterexample`);
variant B's listing can only ever answer 400 or 500, because `clauses.push`
on the plain object `{}` throws before its `min > max` check — the 422 and
200 responses there are dead code; and variant C's listing has no check at
all and also matches silently. -/
theorem c4_filter_conflict_validation :
    (∀ (q : JStr) (f : Filters), parseNaturalLanguageQuery q = .ok f →
      hasLenConflict f.min_length f.max_length = false) ∧
    hasLenConflict (some 20) (some 5) = true ∧
    parseNaturalLanguageQuery (("longer than 19 and shorter than 6").toList) =
      .error .conflict ∧
    ParseErr.conflict.code = 422 ∧
    ParseErr.unparseable.code = 400 ∧
    (∀ q : RawQuery,
      doc2ListStrings q = .badRequest ∨ doc2ListStrings q = .serverError) ∧
    doc3ListStrings
      { min_length := some (("20").toList), max_length := some (("5").toList) }
      [⟨("madam").toList, analyzeString (("madam").toList)⟩] = .ok [] := by
  refine ⟨?_, by decide, by rfl, by rfl, by rfl, ?_, by rfl⟩
  · intro q f h
    simp only [parseNaturalLanguageQuery] at h
    split at h
    · exact absurd h (by simp)
    · split at h
      · exact absurd h (by simp)
      · next hc _ =>
        rcases Except.ok.inj h with rfl
        exact Bool.not_eq_true _ ▸ Bool.of_not_eq_true hc
  · intro q
    have hnum : ∀ s : JStr, doc2NumParamOutcome s = .badRequest ∨
        doc2NumParamOutcome s = .serverError := by
      intro s
      unfold doc2NumParamOutcome
      rcases jsNumberInt s with _ | v
      · exact Or.inl rfl
      · by_cases hv : v < 0
        · exact Or.inl (by simp [hv])
        · exact Or.inr (by simp [hv])
    rcases q with ⟨p, mn, mx, wc, cc⟩
    rcases p with _ | s
    · rcases mn with _ | s
      · rcases mx with _ | s
        · rcases wc with _ | s
          · rcases cc with _ | s
            · exact Or.inr rfl
            · by_cases hs : utf16Len s = 1
              · exact Or.inr (by simp [doc2ListStrings, hasLenConflict, hs])
              · exact Or.inl (by simp [doc2ListStrings, hasLenConflict, hs])
          · exact hnum s
        · exact hnum s
      · exact hnum s
    · by_cases hs : s = ("true").toList ∨ s = ("false").toList
      · refine Or.inr ?_
        show (if s = ("true").toList ∨ s = ("false").toList then
            Doc2ListOutcome.serverError else Doc2ListOutcome.badRequest) = _
        rw [if_pos hs]
      · refine Or.inl ?_
        show (if s = ("true").toList ∨ s = ("false").toList then
            Doc2ListOutcome.serverError else Doc2ListOutcome.badRequest) = _
        rw [if_neg hs]

theorem c4_filter_conflict_validation_witness :
    hasLenConflict (some 3) none = false :=
  c4_filter_conflict_validation.1 (("at least 3").toList)
    { min_length := some 3 } (by rfl)

/-- C5 (counterexample): the claim says the inclusive phrasing
`minimum length N` sets `min_length = N`.  The regex alternative is the
literal `min length`, which `"minimum length 10"` does not contain, and the
branch conditions never accept a `min length` capture either — so the query
sets nothing and the parser fails instead of yielding `{min_length: 10}`. -/
theorem c5_counterexample :
    (buildFilters (("minimum length 10").toList)).min_length = none ∧
    parseNaturalLanguageQuery (("minimum length 10").toList) = .error .unparseable :=
  ⟨by rfl, by rfl⟩

/-- C5 (amended): the lower bound is the maximum over all length-phrase
contributions, where `longer than N` / `greater than N` contribute `N + 1`
(exclusive) and `at least N` contributes `N` (inclusive); `min length N` is
recognized by the regex but contributes nothing, and `minimum length N` is
not recognized at all.  `"strings longer than 10 characters"` yields
`{min_length: 11}`. -/
theorem c5_min_length_bounds :
    (∀ q : JStr,
      (buildFilters q).min_length =
        match (findLenMatches (jsToLower q)).filterMap minContribOf with
        | [] => none
        | v :: vs => some (vs.foldl max v)) ∧
    parseNaturalLanguageQuery (("strings longer than 10 characters").toList) =
      .ok { min_length := some 11 } := by
  refine ⟨fun q => ?_, by rfl⟩
  rw [buildFilters_min]
  cases hml : (findLenMatches (jsToLower q)).filterMap minContribOf with
  | nil => rfl
  | cons v vs =>
    have hnn : ∀ x ∈ v :: vs, (0 : Int) ≤ x := hml ▸ minContribs_nonneg q
    exact foldl_updMin_none_cons v vs hnn

/-- C6 (confirmed): both translators either produce a filter set with at
least one field or fail; a successful result is never the empty filter set,
and a query firing zero rules (`buildFilters q = {}`) always fails with the
unparseable outcome; `"xyz"` is such a query. -/
theorem c6_nonempty_or_unparseable :
    (∀ (q : JStr) (f : Filters), parseNaturalLanguageQuery q = .ok f → f ≠ ({} : Filters)) ∧
    (∀ q : JStr, buildFilters q = ({} : Filters) →
      parseNaturalLanguageQuery q = .error .unparseable) ∧
    (∀ (q : JStr) (f : Filters), parseNlQuery q = some f → f ≠ ({} : Filters)) ∧
    (∀ q : JStr, buildFiltersB q = ({} : Filters) → parseNlQuery q = none) ∧
    parseNaturalLanguageQuery (("xyz").toList) = .error .unparseable ∧
    parseNlQuery (("xyz").toList) = none := by
  refine ⟨?_, ?_, ?_, ?_, by rfl, by rfl⟩
  · intro q f h
    simp only [parseNaturalLanguageQuery] at h
    split at h
    · exact absurd h (by simp)
    · split at h
      · exact absurd h (by simp)
      · next hne =>
        rcases Except.ok.inj h with rfl
        exact hne
  · intro q h
    simp only [parseNaturalLanguageQuery, h]
    rfl
  · intro q f h
    simp only [parseNlQuery] at h
    split at h
    · exact absurd h (by simp)
    · next hne =>
      rcases Option.some.inj h with rfl
      exact hne
  · intro q h
    simp only [parseNlQuery, h]
    rfl

theorem c6_nonempty_or_unparseable_witness :
    buildFilters (("xyz").toList) = ({} : Filters) ∧
    parseNaturalLanguageQuery (("xyz").toList) = .error .unparseable :=
  ⟨by rfl, c6_nonempty_or_unparseable.2.1 _ (by rfl)⟩

/-- C7 (counterexample): the claim says any spelled-out count followed by
`word(s)` sets `word_count`.  `"four words"` matches the regex, but the
mapping handles only `single`/`one`/`two`/`three` before falling back to
`parseInt`, which is `NaN` on `four` — nothing is set and the parse fails
(variant B's parser recognizes only `single`/`one word` and fails too). -/
theorem c7_counterexample :
    parseNaturalLanguageQuery (("four words").toList) = .error .unparseable ∧
    parseNlQuery (("four words").toList) = none :=
  ⟨by rfl, by rfl⟩

/-- C7 (amended): the first word-count phrase sets `word_count` via the
source mapping — `single`/`one` ↦ 1, `two` ↦ 2, `three` ↦ 3, a numeral ↦ its
value — while the matched-but-unmapped `four` and `five` set nothing; the
claim's own example `"all single word palindromic strings"` succeeds with
`{word_count: 1, is_palindrome: true}`. -/
theorem c7_word_count_rules :
    parseNaturalLanguageQuery (("all single word palindromic strings").toList) =
      .ok { is_palindrome := some true, word_count := some 1 } ∧
    (∀ (q : JStr) (ns : JStr), findWordPhrase (jsToLower q) = some ns →
      (buildFilters q).word_count = wordCountOf ns) ∧
    wordCountOf (("single").toList) = some 1 ∧
    wordCountOf (("one").toList) = some 1 ∧
    wordCountOf (("two").toList) = some 2 ∧
    wordCountOf (("three").toList) = some 3 ∧
    wordCountOf (("four").toList) = none ∧
    wordCountOf (("five").toList) = none ∧
    (∀ ds : JStr, ds ≠ [] → (∀ c ∈ ds, c.isDigit = true) →
      wordCountOf ds = some ((digitsToNat ds : Nat) : Int)) := by
  refine ⟨by rfl, ?_, by rfl, by rfl, by rfl, by rfl, by rfl, by rfl, ?_⟩
  · intro q ns h
    rw [buildFilters_word, h]
    rfl
  · intro ds h1 h2
    exact wordCountOf_digits h1 h2

theorem c7_word_count_rules_witness :
    (buildFilters (("exactly 12 words please").toList)).word_count = some 12 := by
  have h := c7_word_count_rules.2.1 (("exactly 12 words please").toList)
      (("12").toList) (by rfl)
  rw [h]
  rfl
